import Mathlib

/-!
A verification development for the driver-stitching pipeline in
`src/fetch/stitch_fields.py` of the bluecorridor repository.

The Python module is shallowly embedded below.  Datasets are modelled as
association lists of named coordinate axes (lists of rationals standing for
timestamps in hours, or degrees of latitude/longitude) and named data
variables (three-dimensional cubes of optional rationals; `none` models a
floating-point NaN / missing value).  Cubes are stored cell-major, i.e.
`cube[latIdx][lonIdx]` is the time series of one grid cell; the Python dims
order `(time, lat, lon)` is a memory-layout detail with no semantic content.
Fallible Python operations (KeyError, ValueError, IndexError, SystemExit,
NameError) are modelled with `Except`.
-/

namespace Stitch

/-- Equality of `Except` values is decidable componentwise. -/
def exceptDecEqAux {ε α : Type} [DecidableEq ε] [DecidableEq α] :
    (x y : Except ε α) → Decidable (x = y)
  | Except.ok a, Except.ok b =>
      if h : a = b then isTrue (h ▸ rfl)
      else isFalse (fun hh => h (Except.ok.inj hh))
  | Except.ok _, Except.error _ => isFalse (fun hh => Except.noConfusion hh)
  | Except.error _, Except.ok _ => isFalse (fun hh => Except.noConfusion hh)
  | Except.error e, Except.error f =>
      if h : e = f then isTrue (h ▸ rfl)
      else isFalse (fun hh => h (Except.error.inj hh))

instance {ε α : Type} [DecidableEq ε] [DecidableEq α] : DecidableEq (Except ε α) :=
  exceptDecEqAux

/-- Python exception values raised by the stitching pipeline. -/
inductive Err where
  | nameError (name : String)
  | keyError (msg : String)
  | valueError (msg : String)
  | indexError
  | systemExit (msg : String)
  deriving DecidableEq, Repr

/-- A data cube over (time, lat, lon), stored cell-major:
`cube[latIdx][lonIdx][timeIdx]`.  `none` models NaN / missing. -/
abbrev Cube := List (List (List (Option ℚ)))

/-- A two-dimensional (lat, lon) field, as read from one GRIB file. -/
abbrev Grid2 := List (List (Option ℚ))

/-- An xarray-style dataset: named coordinate axes and named data variables. -/
structure XDS where
  coords : List (String × List ℚ)
  vars : List (String × Cube)
  deriving DecidableEq, Repr

def getCoord (ds : XDS) (n : String) : Option (List ℚ) :=
  List.lookup n ds.coords

/-- Coordinate access `ds[n]`; raises KeyError when the coordinate is absent. -/
def getCoordE (ds : XDS) (n : String) : Except Err (List ℚ) :=
  match getCoord ds n with
  | some v => Except.ok v
  | none => Except.error (Err.keyError n)

def coordNames (ds : XDS) : List String := ds.coords.map Prod.fst

def dataVarNames (ds : XDS) : List String := ds.vars.map Prod.fst

/-- Python `name in ds` on an xarray Dataset: true for data variables and
for coordinates alike. -/
def dsContains (ds : XDS) (n : String) : Bool :=
  (dataVarNames ds).contains n || (coordNames ds).contains n

/-- Replace the value of coordinate `n` (or append it), keeping positions. -/
def setCoordList (n : String) (v : List ℚ) :
    List (String × List ℚ) → List (String × List ℚ)
  | [] => [(n, v)]
  | (m, w) :: rest =>
      if m = n then (n, v) :: rest else (m, w) :: setCoordList n v rest

/-- `ds.rename` restricted to one coordinate key `a ↦ b` (the pipeline only
renames keys that exist to keys that do not, so collisions never arise). -/
def renameCoordKey (a b : String) (ds : XDS) : XDS :=
  ⟨ds.coords.map (fun p => if p.1 = a then (b, p.2) else p), ds.vars⟩

/-- `ds.rename` restricted to one data-variable name `a ↦ b`. -/
def renameVar (a b : String) (ds : XDS) : XDS :=
  ⟨ds.coords, ds.vars.map (fun p => if p.1 = a then (b, p.2) else p)⟩

/-- `ds[[names]]`: keep exactly the listed variables; KeyError when absent. -/
def selectVars (ds : XDS) (names : List String) : Except Err XDS := do
  let vs ← names.mapM (fun n =>
    match List.lookup n ds.vars with
    | some c => Except.ok (n, c)
    | none => Except.error (Err.keyError n))
  Except.ok ⟨ds.coords, vs⟩

/-!  ### Linear interpolation along one axis

`interpPtsO` is the semantic model of the 1-D linear interpolation that
`scipy` performs under every `xarray.Dataset.interp` call of the module:
given samples `(xᵢ, vᵢ)` with strictly increasing `xᵢ`, a query strictly
between two sample positions is the linear blend of the two bracketing
values, a query at a sample position is that sample's value, and a query
outside the sampled interval is NaN (`none`) — no extrapolation.  A NaN
sample value poisons the two adjacent segments, as in scipy.  scipy
requires at least two sample points; the lists used by the modelled
pipeline runs always have them, and shorter sample lists are mapped to
"no value". -/
def interpPtsO : List (ℚ × Option ℚ) → ℚ → Option ℚ
  | [], _ => none
  | [_], _ => none
  | (t0, v0) :: (t1, v1) :: rest, t =>
      if t < t0 then none
      else if t ≤ t1 then
        match v0, v1 with
        | some a, some b => some (a + (b - a) * (t - t0) / (t1 - t0))
        | _, _ => none
      else interpPtsO ((t1, v1) :: rest) t

/-- Resample one grid cell's time series from axis `src` onto axis `target`
by linear interpolation (the per-cell action of `ds.interp(time=...)`). -/
def resampleSeries (src target : List ℚ) (series : List (Option ℚ)) :
    List (Option ℚ) :=
  target.map (fun t => interpPtsO (src.zip series) t)

/-- `ds.interp` along the time axis: every grid cell independently. -/
def interpCubeTime (src target : List ℚ) (cube : Cube) : Cube :=
  cube.map (fun row => row.map (fun series => resampleSeries src target series))

/-- Interpolate the second axis of a 2-D slab `plane[a][b]` from `src` to
`target`, elementwise in the first axis. -/
def interpPlane (src target : List ℚ) (plane : List (List (Option ℚ))) :
    List (List (Option ℚ)) :=
  ((plane.transpose).map
    (fun row => target.map (fun x => interpPtsO (src.zip row) x))).transpose

/-- `ds.interp` along the lon axis of a cell-major cube. -/
def interpCubeLon (src target : List ℚ) (cube : Cube) : Cube :=
  cube.map (fun plane => interpPlane src target plane)

/-- `ds.interp` along the lat axis of a cell-major cube. -/
def interpCubeLat (src target : List ℚ) (cube : Cube) : Cube :=
  ((cube.transpose).map (fun plane => interpPlane src target plane)).transpose

/-- `ds.interp({time_name: target})`: set the named coordinate to the target
axis and resample every variable along time.  KeyError when the named
coordinate is absent from the dataset. -/
def interpTimeE (ds : XDS) (timeName : String) (target : List ℚ) :
    Except Err XDS := do
  let src ← getCoordE ds timeName
  Except.ok ⟨setCoordList timeName target ds.coords,
             ds.vars.map (fun p => (p.1, interpCubeTime src target p.2))⟩

/-- `ds.interp(lat=latT, lon=lonT, method="linear")`: bilinear regridding,
modelled as sequential linear interpolation along lon then lat (for linear
interpolation the tensor-product order is immaterial). -/
def interpLatLonE (latT lonT : List ℚ) (ds : XDS) : Except Err XDS := do
  let srcLat ← getCoordE ds "lat"
  let srcLon ← getCoordE ds "lon"
  Except.ok ⟨setCoordList "lat" latT (setCoordList "lon" lonT ds.coords),
             ds.vars.map (fun p =>
               (p.1, interpCubeLat srcLat latT (interpCubeLon srcLon lonT p.2)))⟩

/-!  ### `_find_var` (lines 15-19) -/

/-- The for-loop of `_find_var`: first candidate contained in the dataset. -/
def findVarAux (ds : XDS) : List String → Option String
  | [] => none
  | c :: rest => if dsContains ds c then some c else findVarAux ds rest

/-- The KeyError text of `_find_var`:
`f"None of {candidates} found in {list(ds.data_vars)}"` (Python displays the
lists with brackets and quotes; the quotes are dropped here). -/
def noneOfMsg (cands vars : List String) : String :=
  "None of [" ++ String.intercalate ", " cands ++ "] found in [" ++
    String.intercalate ", " vars ++ "]"

/-- `_find_var(ds, candidates)`. -/
def findVar (ds : XDS) (cands : List String) : Except Err String :=
  match findVarAux ds cands with
  | some n => Except.ok n
  | none => Except.error (Err.keyError (noneOfMsg cands (dataVarNames ds)))

/-!  ### `_load_cmems_stokes` (defined twice: lines 21-31 and 34-44) -/

def stokesUCandidatesV1 : List String := ["ustokes", "uuss", "us", "VSDX", "vsdx"]
def stokesVCandidatesV1 : List String := ["vstokes", "vvss", "vs", "VSDY", "vsdy"]
def stokesUCandidatesV2 : List String := ["ustokes", "uuss", "us"]
def stokesVCandidatesV2 : List String := ["vstokes", "vvss", "vs"]

/-- Whether `pat` occurs as a contiguous sublist of the second list. -/
def listContainsSub (pat : List Char) : List Char → Bool
  | [] => pat.isEmpty
  | c :: rest => pat.isPrefixOf (c :: rest) || listContainsSub pat rest

/-- Python substring test `"time" in c` (case-sensitive). -/
def hasTimeSub (c : String) : Bool := listContainsSub "time".toList c.toList

/-- Lines 40-42 (and identically 28-30): if no coordinate is named exactly
`time`, rename the first coordinate whose name contains the substring
`"time"`; indexing `[0]` on an empty comprehension raises IndexError. -/
def normalizeTimeCoordDS (ds : XDS) : Except Err XDS :=
  if "time" ∈ coordNames ds then Except.ok ds
  else
    match (coordNames ds).filter (fun c => hasTimeSub c) with
    | [] => Except.error Err.indexError
    | t :: _ => Except.ok (renameCoordKey t "time" ds)

/-- First definition of `_load_cmems_stokes` (lines 21-31), applied to the
dataset read from `data/raw/cmems_wav_stokes.nc`. -/
def loadCmemsStokesV1 (ds : XDS) : Except Err XDS := do
  let uName ← findVar ds stokesUCandidatesV1
  let vName ← findVar ds stokesVCandidatesV1
  let ds1 := renameVar vName "v_stokes" (renameVar uName "u_stokes" ds)
  let ds2 ← normalizeTimeCoordDS ds1
  selectVars ds2 ["u_stokes", "v_stokes"]

/-- Second definition of `_load_cmems_stokes` (lines 34-44). -/
def loadCmemsStokesV2 (ds : XDS) : Except Err XDS := do
  let uName ← findVar ds stokesUCandidatesV2
  let vName ← findVar ds stokesVCandidatesV2
  let ds1 := renameVar vName "v_stokes" (renameVar uName "u_stokes" ds)
  let ds2 ← normalizeTimeCoordDS ds1
  selectVars ds2 ["u_stokes", "v_stokes"]

/-- The module defines `_load_cmems_stokes` twice; Python keeps the later
binding, so the second definition is the effective one. -/
def loadCmemsStokes : XDS → Except Err XDS := loadCmemsStokesV2

/-!  ### `_gfs_to_dataset` (lines 46-80) -/

/-- One GFS GRIB2 file as opened through cfgrib: a cycle issue time
(`time`), a forecast lead (`step`), the grid axes, and the two 10 m wind
fields.  `fname` is the file name, modelled as an opaque sort key. -/
structure GribFile where
  fname : ℕ
  time : ℚ
  step : ℚ
  lat : List ℚ
  lon : List ℚ
  u10 : Grid2
  v10 : Grid2
  deriving DecidableEq, Repr

/-- The valid time built at line 63: cycle issue time plus forecast lead. -/
def validTime (f : GribFile) : ℚ := f.time + f.step

/-- `sorted(grib_files)` (sorted by file name). -/
def sortFiles (files : List GribFile) : List GribFile :=
  List.insertionSort (fun a b => a.fname ≤ b.fname) files

/-- Ordering used by `sortby("valid_time")` on the concatenated entries. -/
def gfsEntryLe (a b : ℚ × Grid2 × Grid2) : Prop := a.1 ≤ b.1

instance : DecidableRel gfsEntryLe :=
  fun a b => inferInstanceAs (Decidable (a.1 ≤ b.1))

/-- Stack per-time (lat, lon) slabs into a cell-major cube. -/
def buildCube (slabs : List Grid2) : Cube :=
  (slabs.transpose).map List.transpose

/-- `_gfs_to_dataset`: one singleton-time dataset per file with
`valid_time = time + step`, concatenated along `valid_time` and sorted by
it (`sortby` reorders; it does not deduplicate), with `latitude`/`longitude`
renamed to `lat`/`lon`.  The spatial axes are taken per file; concatenation
presumes the files share one grid, as `xr.concat` along `valid_time` does. -/
def gfsToDataset (files : List GribFile) : Except Err XDS :=
  if files.isEmpty then
    Except.error (Err.systemExit "No GFS GRIB2 files in data/raw/gfs/")
  else
    let sortedF := sortFiles files
    let entries := sortedF.map (fun f => (validTime f, f.u10, f.v10))
    let sortedE := List.insertionSort gfsEntryLe entries
    let vts := sortedE.map (fun e => e.1)
    let uCube := buildCube (sortedE.map (fun e => e.2.1))
    let vCube := buildCube (sortedE.map (fun e => e.2.2))
    let lat0 := (sortedF.head?.map GribFile.lat).getD []
    let lon0 := (sortedF.head?.map GribFile.lon).getD []
    Except.ok ⟨[("valid_time", vts), ("lat", lat0), ("lon", lon0)],
               [("u_wind", uCube), ("v_wind", vCube)]⟩

/-!  ### `_to_hourly` (lines 82-89) -/

/-- `np.min` over a nonempty array. -/
def listMin (t : ℚ) (rest : List ℚ) : ℚ := rest.foldl min t

/-- `np.max` over a nonempty array. -/
def listMax (t : ℚ) (rest : List ℚ) : ℚ := rest.foldl max t

/-- `xr.date_range(str(t0), str(t1), freq="1H")`: instants `t0 + k` hours
for every natural `k` with `t0 + k ≤ t1`; empty when `t1 < t0`. -/
def hourlyRange (t0 t1 : ℚ) : List ℚ :=
  if t1 < t0 then []
  else (List.range ((⌊t1 - t0⌋).toNat + 1)).map (fun k : ℕ => t0 + (k : ℚ))

/-- `_to_hourly(ds, time_name)`: ValueError when the time coordinate is
missing (line 84) or empty (`np.min` of a zero-size array), otherwise
interpolate onto `hourlyRange` of the coordinate's min and max. -/
def toHourly (ds : XDS) (timeName : String) : Except Err XDS :=
  match getCoord ds timeName with
  | none => Except.error (Err.valueError ("Dataset missing time coord: " ++ timeName))
  | some [] => Except.error (Err.valueError "zero-size array reduction")
  | some (t :: rest) =>
      interpTimeE ds timeName (hourlyRange (listMin t rest) (listMax t rest))

/-!  ### `main` (lines 91-152) -/

/-- Lines 97-103: rename `latitude`/`longitude` coordinates when present. -/
def renameLatlon (ds : XDS) : XDS :=
  renameCoordKey "longitude" "lon" (renameCoordKey "latitude" "lat" ds)

/-- One iteration of the loop at lines 106-109, for dimension `d`
(`"lat"` or `"lon"`): compare the accumulated stokes dataset's coordinate
array for `d` elementwise (`np.array_equal`) against the currents
(reference) one; when they differ, regrid the whole dataset onto the
reference lat/lon axes.  The boolean records whether an interpolation has
been performed. -/
def regridStep (refLat refLon : List ℚ) (d : String) (acc : XDS × Bool) :
    Except Err (XDS × Bool) := do
  let sd ← getCoordE acc.1 d
  if sd = (if d = "lat" then refLat else refLon) then Except.ok acc
  else do
    let s ← interpLatLonE refLat refLon acc.1
    Except.ok (s, true)

/-- Lines 106-109: the loop `for d in ("lat", "lon")`. -/
def regridToReference (refLat refLon : List ℚ) (stok : XDS) :
    Except Err (XDS × Bool) := do
  let acc1 ← regridStep refLat refLon "lat" (stok, false)
  regridStep refLat refLon "lon" acc1

/-- One variable of the final dataset, as extracted by `ds_x["name"]`:
an xarray DataArray carrying its own coordinate arrays. -/
structure DVar where
  name : String
  time : List ℚ
  lat : List ℚ
  lon : List ℚ
  cube : Cube
  deriving DecidableEq, Repr

/-- The composed driver dataset (lines 127-145), the artifact written to
`data/interim/drivers_72h.nc`. -/
structure Composite where
  time : List ℚ
  lat : List ℚ
  lon : List ℚ
  vars : List DVar
  title : String
  notes : String
  deriving DecidableEq, Repr

/-- `ds["n"]`: the variable's cube together with the dataset's coordinate
arrays; KeyError when the variable or a coordinate is absent. -/
def extractVar (ds : XDS) (n : String) : Except Err DVar := do
  let cube ← (match List.lookup n ds.vars with
    | some c => Except.ok c
    | none => Except.error (Err.keyError n))
  let t ← getCoordE ds "time"
  let la ← getCoordE ds "lat"
  let lo ← getCoordE ds "lon"
  Except.ok ⟨n, t, la, lo, cube⟩

def composeTitle : String := "Blue Corridor Surface Drivers"

def composeNotes : String :=
  "CMEMS physics & waves interpolated hourly; GFS 10m winds interpolated to CMEMS grid/time"

/-- Lines 96-148 of `main`, after the two CMEMS datasets are loaded:
harmonize names, reconcile the stokes grid with the currents grid, build
the hourly axis, interpolate stokes and GFS winds onto it (the single
`gfs.interp(valid_time=…, lat=…, lon=…)` call is modelled as time then
space), and compose the six driver variables.  The returned `Composite`
is the dataset handed to `save_netcdf`. -/
def mainBody (dsCurr0 dsStok0 : XDS) (gfsFiles : List GribFile) :
    Except Err Composite := do
  let dsCurr := renameLatlon dsCurr0
  let dsStok1 := renameLatlon dsStok0
  let currLat ← getCoordE dsCurr "lat"
  let currLon ← getCoordE dsCurr "lon"
  let rg ← regridToReference currLat currLon dsStok1
  let dsStok3 := rg.1
  let dsCurrH ← toHourly dsCurr "time"
  let currHTime ← getCoordE dsCurrH "time"
  let dsStokH ← interpTimeE dsStok3 "time" currHTime
  let gfs ← gfsToDataset gfsFiles
  let currHLat ← getCoordE dsCurrH "lat"
  let currHLon ← getCoordE dsCurrH "lon"
  let gfsT ← interpTimeE gfs "valid_time" currHTime
  let gfsS ← interpLatLonE currHLat currHLon gfsT
  let gfsH := renameCoordKey "valid_time" "time" gfsS
  let uCurr ← extractVar dsCurrH "u_curr"
  let vCurr ← extractVar dsCurrH "v_curr"
  let uStok ← extractVar dsStokH "u_stokes"
  let vStok ← extractVar dsStokH "v_stokes"
  let uWind ← extractVar gfsH "u_wind"
  let vWind ← extractVar gfsH "v_wind"
  let compTime ← getCoordE dsCurrH "time"
  let compLat ← getCoordE dsCurrH "lat"
  let compLon ← getCoordE dsCurrH "lon"
  Except.ok ⟨compTime, compLat, compLon,
             [uCurr, vCurr, uStok, vStok, uWind, vWind],
             composeTitle, composeNotes⟩

/-- The inputs a run of the module can observe: the stokes file contents
and the GRIB files found by the glob.  No currents file appears because no
code that reads one exists in the repository. -/
structure Inputs where
  stokesRaw : XDS
  gfsFiles : List GribFile

/-- The module's global namespace, restricted to the zero-argument dataset
loaders `main` calls by name.  `_load_cmems_stokes` is bound (to its second,
shadowing definition); `_load_cmems_currents` is never defined anywhere in
the repository, so looking it up yields nothing. -/
def stitchGlobals : String → Option (Inputs → Except Err XDS) := fun n =>
  if n = "_load_cmems_stokes" then some (fun inp => loadCmemsStokes inp.stokesRaw)
  else none

/-- `main` (lines 91-149): evaluate `_load_cmems_currents()` — a global
name lookup that raises NameError when unbound — then
`_load_cmems_stokes()`, then the rest of the pipeline.  The `Composite`
in the `ok` case is the file written at line 148; an error means nothing
is written. -/
def runMain (inp : Inputs) : Except Err Composite := do
  let dsCurr ← (match stitchGlobals "_load_cmems_currents" with
    | none => Except.error (Err.nameError "_load_cmems_currents")
    | some load => load inp)
  let dsStok ← (match stitchGlobals "_load_cmems_stokes" with
    | none => Except.error (Err.nameError "_load_cmems_stokes")
    | some load => load inp)
  mainBody dsCurr dsStok inp.gfsFiles

/-!  ### Comparators modelled from the spec (for refinement checks only) -/

/-- Modelled from the spec: "an hourly sequence from the floor of the
reference's minimum timestamp to the ceiling of its maximum, inclusive".
Used only to compare against the implemented `hourlyRange`. -/
def specHourlyAxis (tmin tmax : ℚ) : List ℚ :=
  (List.range ((⌈tmax⌉ - ⌊tmin⌋).toNat + 1)).map (fun k : ℕ => ((⌊tmin⌋ : ℚ) + (k : ℚ)))

/-- Modelled from the spec: the claimed case-insensitive "time" substring
match.  Used only to compare against the implemented `hasTimeSub`. -/
def hasTimeSubCI (c : String) : Bool :=
  listContainsSub "time".toList (c.toList.map Char.toLower)

/-!  ### Concrete datasets used as witnesses and counterexamples -/

/-- The `valid_time` axis of the dataset `_gfs_to_dataset` builds, when it
builds one. -/
def gfsValidTimes (files : List GribFile) : Option (List ℚ) :=
  match gfsToDataset files with
  | Except.ok ds => getCoord ds "valid_time"
  | Except.error _ => none

/-- A dataset whose time coordinate sits on half hours: 00:30 and 01:30. -/
def exDS3 : XDS := ⟨[("time", [1/2, 3/2])], [("u_curr", [[[some 1, some 2]]])]⟩

/-- The value of `_to_hourly` on `exDS3`: the axis starts at 00:30, not at
the floor of the minimum. -/
def exDS3H : XDS := ⟨[("time", [1/2, 3/2])], [("u_curr", [[[some 1, some 2]]])]⟩

/-- A stokes source exposing its components only under `VSDX`/`VSDY`. -/
def exDS5 : XDS :=
  ⟨[("time", [0, 1]), ("latitude", [0]), ("longitude", [0])],
   [("VSDX", [[[some 1, some 1]]]), ("VSDY", [[[some 0, some 0]]])]⟩

/-- A source whose only time-like coordinate is upper-case `TIME`. -/
def exDS4 : XDS := ⟨[("TIME", [0])], []⟩

/-- A source with a `valid_time` coordinate and no `time` coordinate. -/
def exDS4b : XDS := ⟨[("valid_time", [0])], []⟩

/-- A source exposing both the current (`ustokes`) and a legacy (`uuss`)
spelling of the same logical variable. -/
def exBothSpellings : XDS := ⟨[("time", [0])], [("ustokes", []), ("uuss", [])]⟩

/-- GFS file: cycle 00h, lead 5h (valid time 5). -/
def exGfsA : GribFile := ⟨0, 0, 5, [0], [0], [[some 1]], [[some 2]]⟩

/-- GFS file: cycle 03h, lead 2h (valid time 5, duplicating `exGfsA`). -/
def exGfsB : GribFile := ⟨1, 3, 2, [0], [0], [[some 3]], [[some 4]]⟩

/-- A currents dataset on a 1×1 grid with two hourly instants. -/
def exCurr : XDS :=
  ⟨[("time", [0, 1]), ("latitude", [0]), ("longitude", [0])],
   [("u_curr", [[[some 1, some 1]]]), ("v_curr", [[[some 0, some 0]]])]⟩

/-- A loaded stokes dataset on the same grid and time base as `exCurr`. -/
def exStok : XDS :=
  ⟨[("time", [0, 1]), ("lat", [0]), ("lon", [0])],
   [("u_stokes", [[[some 2, some 2]]]), ("v_stokes", [[[some 0, some 0]]])]⟩

/-- The composite produced by `mainBody` on the concrete example run. -/
def exComp9 : Composite :=
  match mainBody exCurr exStok [exGfsA, exGfsB] with
  | Except.ok c => c
  | Except.error _ => ⟨[], [], [], [], "", ""⟩

instance : IsTotal (ℚ × Grid2 × Grid2) gfsEntryLe := ⟨fun a b => le_total a.1 b.1⟩

instance : IsTrans (ℚ × Grid2 × Grid2) gfsEntryLe :=
  ⟨fun _ _ _ hab hbc => le_trans hab hbc⟩

/-!  ## Helper lemmas -/

theorem bindE_ok {α β : Type} {e : Except Err α} {f : α → Except Err β} {b : β}
    (h : (e >>= f) = Except.ok b) : ∃ a, e = Except.ok a ∧ f a = Except.ok b := by
  cases e with
  | ok a => exact ⟨a, rfl, h⟩
  | error m => simp [Bind.bind, Except.bind] at h

theorem getCoordE_ok {ds : XDS} {n : String} {v : List ℚ}
    (h : getCoordE ds n = Except.ok v) : getCoord ds n = some v := by
  unfold getCoordE at h
  cases hg : getCoord ds n with
  | none => rw [hg] at h; exact Except.noConfusion h
  | some w => rw [hg] at h; simp at h; exact congrArg some h

theorem findVarAux_eq_none (ds : XDS) :
    ∀ cands : List String, (∀ c ∈ cands, dsContains ds c = false) →
      findVarAux ds cands = none := by
  intro cands
  induction cands with
  | nil => intro _; rfl
  | cons c rest ih =>
      intro h
      have hc : dsContains ds c = false := h c (by simp)
      simp only [findVarAux, hc, Bool.false_eq_true, if_false]
      exact ih (fun x hx => h x (by simp [hx]))

theorem findVarAux_append (ds : XDS) (c : String) (post : List String) :
    ∀ pre : List String, (∀ p ∈ pre, dsContains ds p = false) →
      dsContains ds c = true → findVarAux ds (pre ++ c :: post) = some c := by
  intro pre
  induction pre with
  | nil => intro _ hc; simp [findVarAux, hc]
  | cons p ps ih =>
      intro h hc
      have hp : dsContains ds p = false := h p (by simp)
      simp only [List.cons_append, findVarAux, hp, Bool.false_eq_true, if_false]
      exact ih (fun x hx => h x (by simp [hx])) hc

theorem map_fst_rename (a b : String) :
    ∀ l : List (String × List ℚ),
      (l.map (fun p => if p.1 = a then (b, p.2) else p)).map Prod.fst =
        (l.map Prod.fst).map (fun n => if n = a then b else n) := by
  intro l
  induction l with
  | nil => rfl
  | cons p ps ih => by_cases hp : p.1 = a <;> simp [hp, ih]

theorem coordNames_renameCoordKey (a b : String) (ds : XDS) :
    coordNames (renameCoordKey a b ds) =
      (coordNames ds).map (fun n => if n = a then b else n) := by
  simpa [coordNames, renameCoordKey] using map_fst_rename a b ds.coords

theorem lookup_setCoordList_self (n : String) (v : List ℚ) :
    ∀ l : List (String × List ℚ), List.lookup n (setCoordList n v l) = some v := by
  intro l
  induction l with
  | nil => simp [setCoordList, List.lookup]
  | cons p ps ih =>
      by_cases hp : p.1 = n
      · simp [setCoordList, hp, List.lookup]
      · have hb : (n == p.1) = false := beq_eq_false_iff_ne.mpr (Ne.symm hp)
        simp [setCoordList, hp, List.lookup, hb, ih]

theorem lookup_setCoordList_ne (m n : String) (v : List ℚ) (hmn : m ≠ n) :
    ∀ l : List (String × List ℚ),
      List.lookup m (setCoordList n v l) = List.lookup m l := by
  intro l
  induction l with
  | nil =>
      have hb : (m == n) = false := beq_eq_false_iff_ne.mpr hmn
      simp [setCoordList, List.lookup, hb]
  | cons p ps ih =>
      by_cases hp : p.1 = n
      · have hb : (m == n) = false := beq_eq_false_iff_ne.mpr hmn
        have hb2 : (m == p.1) = false := by rw [hp]; exact hb
        simp [setCoordList, hp, List.lookup, hb, hb2]
      · by_cases hm : m = p.1
        · simp [setCoordList, hp, List.lookup, hm]
        · have hb2 : (m == p.1) = false := beq_eq_false_iff_ne.mpr hm
          simp [setCoordList, hp, List.lookup, hb2, ih]

theorem interpTimeE_ok_coords {ds : XDS} {tn : String} {target : List ℚ} {ds2 : XDS}
    (h : interpTimeE ds tn target = Except.ok ds2) :
    ds2.coords = setCoordList tn target ds.coords := by
  unfold interpTimeE at h
  obtain ⟨src, hsrc, h⟩ := bindE_ok h
  simp at h
  rw [← h]

theorem interpLatLonE_ok_getCoord {latT lonT : List ℚ} {ds ds2 : XDS}
    (h : interpLatLonE latT lonT ds = Except.ok ds2) :
    getCoord ds2 "lat" = some latT ∧ getCoord ds2 "lon" = some lonT := by
  unfold interpLatLonE at h
  obtain ⟨sl, hsl, h⟩ := bindE_ok h
  obtain ⟨so, hso, h⟩ := bindE_ok h
  simp at h
  rw [← h]
  constructor
  · exact lookup_setCoordList_self "lat" latT _
  · rw [show getCoord
        (⟨setCoordList "lat" latT (setCoordList "lon" lonT ds.coords),
          ds.vars.map (fun p =>
            (p.1, interpCubeLat sl latT (interpCubeLon so lonT p.2)))⟩ : XDS) "lon" =
        List.lookup "lon" (setCoordList "lat" latT (setCoordList "lon" lonT ds.coords))
      from rfl]
    rw [lookup_setCoordList_ne "lon" "lat" latT (by decide)]
    exact lookup_setCoordList_self "lon" lonT _

theorem extractVar_ok {ds : XDS} {n : String} {v : DVar}
    (h : extractVar ds n = Except.ok v) :
    v.name = n ∧ getCoord ds "time" = some v.time ∧
      getCoord ds "lat" = some v.lat ∧ getCoord ds "lon" = some v.lon := by
  unfold extractVar at h
  obtain ⟨cube, hcube, h⟩ := bindE_ok h
  obtain ⟨t, ht, h⟩ := bindE_ok h
  obtain ⟨la, hla, h⟩ := bindE_ok h
  obtain ⟨lo, hlo, h⟩ := bindE_ok h
  simp at h
  rw [← h]
  exact ⟨rfl, getCoordE_ok ht, getCoordE_ok hla, getCoordE_ok hlo⟩

/-!  ## Claim theorems -/

/-- C1: `main` fails on every run with a NameError for
`_load_cmems_currents`, a global name never defined anywhere in the
repository, so for every input no composite driver dataset is ever
produced (hence nothing is written). -/
theorem main_undefined_loader (inp : Inputs) :
    runMain inp = Except.error (Err.nameError "_load_cmems_currents") ∧
    ∀ comp : Composite, runMain inp ≠ Except.ok comp := by
  have h : runMain inp = Except.error (Err.nameError "_load_cmems_currents") := rfl
  exact ⟨h, fun comp hc => by rw [h] at hc; exact Except.noConfusion hc⟩

/-- Witness for C1 at a concrete input. -/
theorem main_undefined_loader_witness :
    runMain ⟨exDS5, [exGfsA]⟩ = Except.error (Err.nameError "_load_cmems_currents") :=
  (main_undefined_loader ⟨exDS5, [exGfsA]⟩).1

/-- C6: variable resolution returns the first candidate, in candidate-list
order, that is present in the source (its variables or coordinates); in
particular a current spelling listed before a legacy one is returned even
when both are present. -/
theorem find_var_first_candidate (ds : XDS) (pre : List String) (c : String)
    (post : List String) (hpre : ∀ p ∈ pre, dsContains ds p = false)
    (hc : dsContains ds c = true) :
    findVar ds (pre ++ c :: post) = Except.ok c := by
  simp [findVar, findVarAux_append ds c post pre hpre hc]

/-- Witness for C6: both `ustokes` (current) and `uuss` (legacy) are
present; the first-listed `ustokes` is returned. -/
theorem find_var_first_candidate_witness :
    dsContains exBothSpellings "ustokes" = true ∧
    dsContains exBothSpellings "uuss" = true ∧
    findVar exBothSpellings ["ustokes", "uuss", "us"] = Except.ok "ustokes" :=
  ⟨by decide, by decide,
   find_var_first_candidate exBothSpellings [] "ustokes" ["uuss", "us"]
     (by simp) (by decide)⟩

/-- C5 (amended): when no candidate matches, `_find_var` raises a KeyError
whose text is built from the candidate list tried and the source's data
variable names only — the resolver receives no logical name and no
provenance tag, so the diagnostic identifies neither — and there is no
fallback to a default zero or NaN field. -/
theorem find_var_missing_message (ds : XDS) (cands : List String)
    (h : ∀ c ∈ cands, dsContains ds c = false) :
    findVar ds cands =
      Except.error (Err.keyError (noneOfMsg cands (dataVarNames ds))) := by
  simp [findVar, findVarAux_eq_none ds cands h]

/-- Witness for C5 (amended) at a concrete source. -/
theorem find_var_missing_message_witness :
    (∀ c ∈ stokesUCandidatesV2, dsContains exDS5 c = false) ∧
    findVar exDS5 stokesUCandidatesV2 =
      Except.error (Err.keyError (noneOfMsg stokesUCandidatesV2 (dataVarNames exDS5))) :=
  ⟨by decide, find_var_missing_message exDS5 stokesUCandidatesV2 (by decide)⟩

/-- C5 (counterexample): at a concrete stokes source the diagnostic text
contains the candidate list and the source's variable names, but neither
the logical name (`u_stokes`) nor any provenance tag (`cmems`, the provider
id of the file being read). -/
theorem find_var_message_lacks_provenance :
    findVar exDS5 stokesUCandidatesV2 =
      Except.error (Err.keyError "None of [ustokes, uuss, us] found in [VSDX, VSDY]") ∧
    listContainsSub "u_stokes".toList
      "None of [ustokes, uuss, us] found in [VSDX, VSDY]".toList = false ∧
    listContainsSub "cmems".toList
      "None of [ustokes, uuss, us] found in [VSDX, VSDY]".toList = false := by
  exact ⟨by with_unfolding_all decide, by decide, by decide⟩

/-- C10: the second definition of `_load_cmems_stokes` shadows the first,
so the effective candidate spellings are exactly `["ustokes", "uuss", "us"]`
and `["vstokes", "vvss", "vs"]`; `VSDX`/`VSDY` appear only in the shadowed
first definition, and a source none of whose variables match the effective
u-candidates (such as one exposing only `VSDX`/`VSDY`) makes loading fail
with the missing-variable KeyError instead of resolving them. -/
theorem stokes_shadowing_drops_vsdx :
    loadCmemsStokes = loadCmemsStokesV2 ∧
    stokesUCandidatesV2 = ["ustokes", "uuss", "us"] ∧
    stokesVCandidatesV2 = ["vstokes", "vvss", "vs"] ∧
    ("VSDX" ∈ stokesUCandidatesV1 ∧ "VSDX" ∉ stokesUCandidatesV2 ∧
      "VSDY" ∈ stokesVCandidatesV1 ∧ "VSDY" ∉ stokesVCandidatesV2) ∧
    ∀ ds : XDS, (∀ c ∈ stokesUCandidatesV2, dsContains ds c = false) →
      loadCmemsStokes ds =
        Except.error (Err.keyError (noneOfMsg stokesUCandidatesV2 (dataVarNames ds))) := by
  refine ⟨rfl, rfl, rfl, by decide, ?_⟩
  intro ds h
  have haux : findVarAux ds stokesUCandidatesV2 = none := findVarAux_eq_none ds _ h
  simp [loadCmemsStokes, loadCmemsStokesV2, findVar, haux, Bind.bind, Except.bind]

/-- Witness for C10 at the `VSDX`/`VSDY`-only source. -/
theorem stokes_shadowing_drops_vsdx_witness :
    (∀ c ∈ stokesUCandidatesV2, dsContains exDS5 c = false) ∧
    loadCmemsStokes exDS5 =
      Except.error (Err.keyError (noneOfMsg stokesUCandidatesV2 (dataVarNames exDS5))) :=
  ⟨by decide, stokes_shadowing_drops_vsdx.2.2.2.2 exDS5 (by decide)⟩

/-- C4 (counterexample): the time-coordinate detection is case-sensitive:
a dataset whose only coordinate is `TIME` matches the claimed
case-insensitive rule yet is not renamed — normalization fails with
IndexError instead. -/
theorem time_rename_not_case_insensitive :
    normalizeTimeCoordDS exDS4 = Except.error Err.indexError ∧
    hasTimeSubCI "TIME" = true ∧ hasTimeSub "TIME" = false := by
  exact ⟨by with_unfolding_all decide, by decide, by decide⟩

/-- C4 (amended): when some coordinate is named exactly `time`,
normalization is a no-op (nothing is renamed, even if other coordinate
names contain the substring); otherwise exactly the first coordinate whose
name contains the lowercase substring `time` (case-sensitively) is renamed
to `time`, yielding a `time` coordinate; and when no coordinate name
contains that substring, normalization fails (IndexError — the spec's
MissingCoordinate condition). -/
theorem normalize_time_coord_amended (ds : XDS) :
    ("time" ∈ coordNames ds → normalizeTimeCoordDS ds = Except.ok ds) ∧
    ("time" ∉ coordNames ds →
      ∀ pre t post, coordNames ds = pre ++ t :: post →
        (∀ c ∈ pre, hasTimeSub c = false) → hasTimeSub t = true →
        normalizeTimeCoordDS ds = Except.ok (renameCoordKey t "time" ds) ∧
        "time" ∈ coordNames (renameCoordKey t "time" ds)) ∧
    ((∀ c ∈ coordNames ds, hasTimeSub c = false) →
      normalizeTimeCoordDS ds = Except.error Err.indexError) := by
  refine ⟨?_, ?_, ?_⟩
  · intro ht
    simp [normalizeTimeCoordDS, ht]
  · intro ht pre t post hdec hpre htsub
    have h1 : pre.filter (fun c => hasTimeSub c) = [] :=
      List.filter_eq_nil_iff.mpr (fun a ha => by simp [hpre a ha])
    have hfil : (coordNames ds).filter (fun c => hasTimeSub c) =
        t :: post.filter (fun c => hasTimeSub c) := by
      rw [hdec, List.filter_append, h1, List.nil_append,
        List.filter_cons_of_pos htsub]
    constructor
    · simp [normalizeTimeCoordDS, ht, hfil]
    · have ht2 : t ∈ coordNames ds := by
        rw [hdec]
        exact List.mem_append.mpr (Or.inr (List.mem_cons_self t post))
      rw [coordNames_renameCoordKey]
      exact List.mem_map.mpr ⟨t, ht2, by simp⟩
  · intro h
    have ht : "time" ∉ coordNames ds := fun hmem => by
      have hcontra := h "time" hmem
      exact absurd hcontra (by decide)
    have hf : (coordNames ds).filter (fun x => hasTimeSub x) = [] := by
      apply List.filter_eq_nil_iff.mpr
      intro a ha
      simp [h a ha]
    simp [normalizeTimeCoordDS, ht, hf]

/-- Witness for C4 (amended): `valid_time` is the first (and only)
coordinate containing `time` and is renamed to `time`. -/
theorem normalize_time_coord_amended_witness :
    ("time" ∉ coordNames exDS4b) ∧
    coordNames exDS4b = [] ++ "valid_time" :: [] ∧
    (∀ c ∈ ([] : List String), hasTimeSub c = false) ∧
    hasTimeSub "valid_time" = true ∧
    (normalizeTimeCoordDS exDS4b =
        Except.ok (renameCoordKey "valid_time" "time" exDS4b) ∧
      "time" ∈ coordNames (renameCoordKey "valid_time" "time" exDS4b)) :=
  ⟨by decide, by decide, by simp, by decide,
   (normalize_time_coord_amended exDS4b).2.1 (by decide) [] "valid_time" []
     (by decide) (by simp) (by decide)⟩

/-- C2 (counterexample): two forecast files with the same valid time (5h)
are both retained: the concatenated, sorted axis is `[5, 5]`, not the
single-entry `[5]` that deduplication with last-wins would give. -/
theorem gfs_duplicate_valid_times_kept :
    validTime exGfsA = 5 ∧ validTime exGfsB = 5 ∧
    gfsValidTimes [exGfsA, exGfsB] = some [5, 5] ∧
    ([(5 : ℚ), 5] ≠ [5]) := by
  refine ⟨by with_unfolding_all decide, by with_unfolding_all decide,
    by with_unfolding_all decide, by with_unfolding_all decide⟩

theorem foldl_min_le_init : ∀ (l : List ℚ) (t : ℚ), l.foldl min t ≤ t := by
  intro l
  induction l with
  | nil => intro t; exact le_refl t
  | cons x xs ih => intro t; exact le_trans (ih (min t x)) (min_le_left t x)

theorem init_le_foldl_max : ∀ (l : List ℚ) (t : ℚ), t ≤ l.foldl max t := by
  intro l
  induction l with
  | nil => intro t; exact le_refl t
  | cons x xs ih => intro t; exact le_trans (le_max_left t x) (ih (max t x))

theorem listMin_le_listMax (t : ℚ) (rest : List ℚ) :
    listMin t rest ≤ listMax t rest :=
  le_trans (foldl_min_le_init rest t) (init_le_foldl_max rest t)

theorem hourlyRange_head (t0 t1 : ℚ) (h : t0 ≤ t1) :
    (hourlyRange t0 t1).head? = some t0 := by
  rw [hourlyRange, if_neg (not_lt.mpr h), List.range_succ_eq_map]
  simp

theorem hourlyRange_sorted (t0 t1 : ℚ) :
    List.Sorted (· < ·) (hourlyRange t0 t1) := by
  rw [hourlyRange]
  split
  · exact List.sorted_nil
  · refine (List.pairwise_lt_range _).map _ (fun a b hab => ?_)
    have hc : (a : ℚ) < (b : ℚ) := by exact_mod_cast hab
    linarith

theorem hourlyRange_step (t0 t1 : ℚ) :
    List.Chain' (fun a b => b = a + 1) (hourlyRange t0 t1) := by
  rw [hourlyRange]
  split
  · exact List.chain'_nil
  · rw [List.chain'_map,
      show (⌊t1 - t0⌋).toNat + 1 = ((⌊t1 - t0⌋).toNat).succ from rfl,
      List.chain'_range_succ]
    intro m _
    push_cast
    ring

theorem hourlyRange_mem_bounds (t0 t1 : ℚ) (h : t0 ≤ t1) :
    ∀ x ∈ hourlyRange t0 t1, t0 ≤ x ∧ x ≤ t1 := by
  rw [hourlyRange, if_neg (not_lt.mpr h)]
  intro x hx
  obtain ⟨k, hk, hfk⟩ := List.mem_map.mp hx
  subst hfk
  constructor
  · have hc : (0 : ℚ) ≤ (k : ℚ) := Nat.cast_nonneg k
    linarith
  · have hk2 : k ≤ (⌊t1 - t0⌋).toNat := Nat.lt_succ_iff.mp (List.mem_range.mp hk)
    have hk3 : (k : ℚ) ≤ ((⌊t1 - t0⌋).toNat : ℚ) := by exact_mod_cast hk2
    have hfl0 : (0 : ℤ) ≤ ⌊t1 - t0⌋ := Int.floor_nonneg.mpr (by linarith)
    have hcast : (((⌊t1 - t0⌋).toNat : ℤ) : ℚ) = ((⌊t1 - t0⌋ : ℤ) : ℚ) := by
      exact_mod_cast congrArg (fun z : ℤ => (z : ℚ)) (Int.toNat_of_nonneg hfl0)
    have hfle : ((⌊t1 - t0⌋ : ℤ) : ℚ) ≤ t1 - t0 := Int.floor_le (t1 - t0)
    have hk4 : (k : ℚ) ≤ t1 - t0 := by
      calc (k : ℚ) ≤ ((⌊t1 - t0⌋).toNat : ℚ) := hk3
        _ = ((⌊t1 - t0⌋ : ℤ) : ℚ) := by exact_mod_cast hcast
        _ ≤ t1 - t0 := hfle
    linarith

theorem hourlyRange_max_mem_iff (t0 t1 : ℚ) (h : t0 ≤ t1) :
    t1 ∈ hourlyRange t0 t1 ↔ ∃ k : ℕ, t1 = t0 + (k : ℚ) := by
  rw [hourlyRange, if_neg (not_lt.mpr h)]
  constructor
  · intro hmem
    obtain ⟨k, _, hfk⟩ := List.mem_map.mp hmem
    exact ⟨k, hfk.symm⟩
  · rintro ⟨k, hk⟩
    apply List.mem_map.mpr
    refine ⟨k, ?_, hk.symm⟩
    apply List.mem_range.mpr
    have hd : t1 - t0 = (k : ℚ) := by rw [hk]; ring
    rw [hd]
    have hfk : ⌊(k : ℚ)⌋ = (k : ℤ) := Int.floor_natCast k
    rw [hfk]
    simp

/-- C3 (amended): the canonical hourly axis starts at the exact minimum of
the reference time coordinate (not its floor), consecutive instants differ
by exactly one hour, it is strictly increasing and stays at most the
maximum, and the maximum is included exactly when the span is a whole
number of hours (so the ceiling endpoint of the claim is not taken
either). -/
theorem to_hourly_axis_props (ds : XDS) (tn : String) (t : ℚ) (rest : List ℚ)
    (h : getCoord ds tn = some (t :: rest)) :
    ∃ ds2 axis, toHourly ds tn = Except.ok ds2 ∧ getCoord ds2 tn = some axis ∧
      axis.head? = some (listMin t rest) ∧
      List.Chain' (fun a b => b = a + 1) axis ∧
      List.Sorted (· < ·) axis ∧
      (∀ x ∈ axis, listMin t rest ≤ x ∧ x ≤ listMax t rest) ∧
      (listMax t rest ∈ axis ↔ ∃ k : ℕ, listMax t rest = listMin t rest + (k : ℚ)) := by
  have hmm : listMin t rest ≤ listMax t rest := listMin_le_listMax t rest
  refine ⟨⟨setCoordList tn (hourlyRange (listMin t rest) (listMax t rest)) ds.coords,
           ds.vars.map (fun p =>
             (p.1, interpCubeTime (t :: rest)
               (hourlyRange (listMin t rest) (listMax t rest)) p.2))⟩,
         hourlyRange (listMin t rest) (listMax t rest), ?_, ?_, ?_, ?_, ?_, ?_, ?_⟩
  · simp [toHourly, h, interpTimeE, getCoordE, Bind.bind, Except.bind]
  · exact lookup_setCoordList_self tn _ ds.coords
  · exact hourlyRange_head _ _ hmm
  · exact hourlyRange_step _ _
  · exact hourlyRange_sorted _ _
  · exact hourlyRange_mem_bounds _ _ hmm
  · exact hourlyRange_max_mem_iff _ _ hmm

/-- Witness for C3 (amended) at the half-hour dataset. -/
theorem to_hourly_axis_props_witness :
    getCoord exDS3 "time" = some ((1 : ℚ)/2 :: [3/2]) ∧
    (∃ ds2 axis, toHourly exDS3 "time" = Except.ok ds2 ∧
      getCoord ds2 "time" = some axis ∧
      axis.head? = some (listMin (1/2) [3/2]) ∧
      List.Chain' (fun a b => b = a + 1) axis ∧
      List.Sorted (· < ·) axis ∧
      (∀ x ∈ axis, listMin (1/2) [3/2] ≤ x ∧ x ≤ listMax (1/2) [3/2]) ∧
      (listMax (1/2) [3/2] ∈ axis ↔
        ∃ k : ℕ, listMax (1/2) [3/2] = listMin (1/2) [3/2] + (k : ℚ))) :=
  ⟨rfl, to_hourly_axis_props exDS3 "time" (1/2) [3/2] rfl⟩

/-- C2 (amended): each file's valid time is its cycle issue time plus its
forecast lead, and the concatenated wind axis is sorted by valid time and
is a permutation of all per-file valid times — overlapping valid times are
all retained; nothing is deduplicated and no occurrence takes precedence. -/
theorem gfs_axis_sorted_keeps_all (files : List GribFile) (h : files ≠ []) :
    ∃ vts, gfsValidTimes files = some vts ∧ List.Sorted (· ≤ ·) vts ∧
      vts.Perm (files.map (fun f => f.time + f.step)) := by
  have hne : files.isEmpty = false := by
    cases files with
    | nil => exact absurd rfl h
    | cons a l => rfl
  refine ⟨(List.insertionSort gfsEntryLe ((sortFiles files).map
      (fun f => (validTime f, f.u10, f.v10)))).map (fun e => e.1), ?_, ?_, ?_⟩
  · simp [gfsValidTimes, gfsToDataset, hne, getCoord, List.lookup]
  · exact (List.sorted_insertionSort gfsEntryLe _).map _ (fun a b hab => hab)
  · have h2 := (List.perm_insertionSort gfsEntryLe
      ((sortFiles files).map (fun f => (validTime f, f.u10, f.v10)))).map
        (fun e : ℚ × Grid2 × Grid2 => e.1)
    have h3 : (((sortFiles files).map (fun f => (validTime f, f.u10, f.v10))).map
        (fun e : ℚ × Grid2 × Grid2 => e.1)) =
          (sortFiles files).map (fun f => f.time + f.step) := by
      simp [List.map_map, validTime]
    rw [h3] at h2
    have h4 : (sortFiles files).Perm files := List.perm_insertionSort _ files
    exact h2.trans (h4.map (fun f => f.time + f.step))

/-- Witness for C2 (amended) at a two-file input. -/
theorem gfs_axis_sorted_keeps_all_witness :
    ([exGfsA, exGfsB] : List GribFile) ≠ [] ∧
    (∃ vts, gfsValidTimes [exGfsA, exGfsB] = some vts ∧
      List.Sorted (· ≤ ·) vts ∧
      vts.Perm ([exGfsA, exGfsB].map (fun f => f.time + f.step))) :=
  ⟨by simp, gfs_axis_sorted_keeps_all [exGfsA, exGfsB] (by simp)⟩

/-- Case analysis of one regrid-loop iteration that succeeded: either the
coordinate arrays matched and the dataset passed through untouched, or an
interpolation was performed and the flag is set. -/
theorem regridStep_cases {refLat refLon : List ℚ} {d : String}
    {acc out : XDS × Bool} (h : regridStep refLat refLon d acc = Except.ok out) :
    (out = acc ∧ getCoord acc.1 d = some (if d = "lat" then refLat else refLon)) ∨
    (out.2 = true ∧ interpLatLonE refLat refLon acc.1 = Except.ok out.1) := by
  unfold regridStep at h
  obtain ⟨sd, hsd, h⟩ := bindE_ok h
  by_cases e : sd = (if d = "lat" then refLat else refLon)
  · rw [if_pos e] at h
    have : acc = out := Except.ok.inj h
    exact Or.inl ⟨this.symm, by rw [getCoordE_ok hsd, e]⟩
  · rw [if_neg e] at h
    obtain ⟨s, hs, hmk⟩ := bindE_ok h
    have hoe : (s, true) = out := Except.ok.inj hmk
    refine Or.inr ⟨?_, ?_⟩
    · rw [← hoe]
    · rw [← hoe]
      exact hs

/-- C7: grid reconciliation is the identity exactly when the source's lat
and lon coordinate arrays already equal the reference's elementwise: then
the dataset comes back unchanged (literally equal, no interpolation and no
flag), and whenever either array differs an interpolation is recorded. -/
theorem regrid_noop_iff (refLat refLon : List ℚ) (stok : XDS) (sLat sLon : List ℚ)
    (hlat : getCoord stok "lat" = some sLat)
    (hlon : getCoord stok "lon" = some sLon) :
    (sLat = refLat ∧ sLon = refLon) ↔
      regridToReference refLat refLon stok = Except.ok (stok, false) := by
  constructor
  · rintro ⟨h1, h2⟩
    subst h1; subst h2
    simp [regridToReference, regridStep, getCoordE, hlat, hlon,
      Bind.bind, Except.bind]
  · intro h
    unfold regridToReference at h
    obtain ⟨acc1, hstep1, hstep2⟩ := bindE_ok h
    rcases regridStep_cases hstep2 with ⟨hout, hcoord⟩ | ⟨hflag, _⟩
    · rw [← hout] at hstep1 hcoord
      rcases regridStep_cases hstep1 with ⟨_, hcoord1⟩ | ⟨hflag1, _⟩
      · refine ⟨?_, ?_⟩
        · have h5 := hcoord1.symm.trans hlat
          simpa using (Option.some.inj h5).symm
        · have h5 := hcoord.symm.trans hlon
          simpa using (Option.some.inj h5).symm
      · exact Bool.noConfusion hflag1
    · exact Bool.noConfusion hflag

/-- Witness for C7: a stokes source already on the reference grid passes
through unchanged. -/
theorem regrid_noop_iff_witness :
    getCoord exStok "lat" = some [0] ∧ getCoord exStok "lon" = some [0] ∧
    regridToReference [0] [0] exStok = Except.ok (exStok, false) :=
  ⟨rfl, rfl, (regrid_noop_iff [0] [0] exStok [0] [0] rfl rfl).mp ⟨rfl, rfl⟩⟩

theorem chain_lt_le_getLast : ∀ (l : List ℚ) (x : ℚ),
    List.Chain' (· < ·) (x :: l) → x ≤ (x :: l).getLast (List.cons_ne_nil x l) := by
  intro l
  induction l with
  | nil => intro x _; exact le_refl x
  | cons y ys ih =>
      intro x h
      rw [List.getLast_cons_cons]
      exact le_trans (le_of_lt (List.chain'_cons.mp h).1)
        (ih y (List.chain'_cons.mp h).2)

/-- A query left of the first sample position yields no value. -/
theorem interp_before_none (pts : List (ℚ × Option ℚ)) (p : ℚ × Option ℚ)
    (t : ℚ) (h : t < p.1) : interpPtsO (p :: pts) t = none := by
  cases pts with
  | nil => rfl
  | cons q rs =>
      obtain ⟨p1, p2⟩ := p
      obtain ⟨q1, q2⟩ := q
      simp only [interpPtsO]
      rw [if_pos h]

/-- A query right of the last sample position yields no value. -/
theorem interp_beyond_none :
    ∀ (rest : List (ℚ × Option ℚ)) (p q : ℚ × Option ℚ) (t : ℚ),
      List.Chain' (· < ·) ((p :: q :: rest).map Prod.fst) →
      ((p :: q :: rest).map Prod.fst).getLast (by simp) < t →
      interpPtsO (p :: q :: rest) t = none := by
  intro rest
  induction rest with
  | nil =>
      intro p q t hs hgt
      obtain ⟨p1, p2⟩ := p
      obtain ⟨q1, q2⟩ := q
      have hpq : p1 < q1 := (List.chain'_cons.mp hs).1
      have hq : q1 < t := hgt
      simp only [interpPtsO]
      rw [if_neg (not_lt.mpr (le_of_lt (lt_trans hpq hq))),
        if_neg (not_le.mpr hq)]
  | cons r rs ih =>
      intro p q t hs hgt
      obtain ⟨p1, p2⟩ := p
      obtain ⟨q1, q2⟩ := q
      simp only [List.map_cons] at hs hgt
      have hpq : p1 < q1 := (List.chain'_cons.mp hs).1
      have hs2 : List.Chain' (· < ·) (q1 :: (r :: rs).map Prod.fst) :=
        (List.chain'_cons.mp hs).2
      rw [List.getLast_cons_cons] at hgt
      have hqle : q1 ≤ (q1 :: (r :: rs).map Prod.fst).getLast
          (List.cons_ne_nil _ _) := chain_lt_le_getLast _ q1 hs2
      have hq : q1 < t := lt_of_le_of_lt hqle hgt
      simp only [interpPtsO]
      rw [if_neg (not_lt.mpr (le_of_lt (lt_trans hpq hq))),
        if_neg (not_le.mpr hq)]
      exact ih (q1, q2) r t hs2 hgt

/-- Inside the sampled interval a query on NaN-free samples has a value. -/
theorem interp_inside_some :
    ∀ (rest : List (ℚ × Option ℚ)) (p q : ℚ × Option ℚ) (t : ℚ),
      List.Chain' (· < ·) ((p :: q :: rest).map Prod.fst) →
      (∀ x ∈ p :: q :: rest, x.2 ≠ none) →
      p.1 ≤ t → t ≤ ((p :: q :: rest).map Prod.fst).getLast (by simp) →
      interpPtsO (p :: q :: rest) t ≠ none := by
  intro rest
  induction rest with
  | nil =>
      intro p q t hs hsome hle hge
      obtain ⟨p1, p2⟩ := p
      obtain ⟨q1, q2⟩ := q
      have hp2 : p2 ≠ none := hsome (p1, p2) (by simp)
      have hq2 : q2 ≠ none := hsome (q1, q2) (by simp)
      obtain ⟨a, ha⟩ := Option.ne_none_iff_exists.mp hp2
      obtain ⟨b, hb⟩ := Option.ne_none_iff_exists.mp hq2
      have hgq : t ≤ q1 := hge
      simp only [interpPtsO]
      rw [if_neg (not_lt.mpr hle), if_pos hgq, ← ha, ← hb]
      simp
  | cons r rs ih =>
      intro p q t hs hsome hle hge
      obtain ⟨p1, p2⟩ := p
      obtain ⟨q1, q2⟩ := q
      simp only [List.map_cons] at hs hge
      have hs2 : List.Chain' (· < ·) (q1 :: (r :: rs).map Prod.fst) :=
        (List.chain'_cons.mp hs).2
      rw [List.getLast_cons_cons] at hge
      by_cases hq : t ≤ q1
      · have hp2 : p2 ≠ none := hsome (p1, p2) (by simp)
        have hq2v : q2 ≠ none := hsome (q1, q2) (by simp)
        obtain ⟨a, ha⟩ := Option.ne_none_iff_exists.mp hp2
        obtain ⟨b, hb⟩ := Option.ne_none_iff_exists.mp hq2v
        simp only [interpPtsO]
        rw [if_neg (not_lt.mpr hle), if_pos hq, ← ha, ← hb]
        simp
      · have hq2 : q1 < t := not_le.mp hq
        simp only [interpPtsO]
        rw [if_neg (not_lt.mpr hle), if_neg hq]
        exact ih (q1, q2) r t hs2
          (fun x hx => hsome x (List.mem_cons_of_mem _ hx))
          (le_of_lt hq2) hge

theorem mem_zip_map {α β : Type} (f : α → β) :
    ∀ (l : List α) (pr : β × α), pr ∈ (l.map f).zip l → pr.1 = f pr.2 := by
  intro l
  induction l with
  | nil => intro pr hpr; simp at hpr
  | cons a as ih =>
      intro pr hpr
      simp only [List.map_cons, List.zip_cons_cons, List.mem_cons] at hpr
      rcases hpr with hpr | hpr
      · rw [hpr]
      · exact ih pr hpr

/-- C8: time resampling is linear interpolation applied at each grid cell
independently; on a NaN-free cell series over a strictly increasing source
axis, a resampled value is NaN exactly at the target instants lying outside
the source's covered time range — strictly inside (and at the endpoints)
there is a value, and outside there is none (no extrapolation). -/
theorem resample_time_nan_boundary (p q : ℚ × ℚ) (rest : List (ℚ × ℚ))
    (hs : List.Chain' (· < ·) ((p :: q :: rest).map Prod.fst)) :
    (∀ (src target : List ℚ) (cube : Cube),
        interpCubeTime src target cube =
          cube.map (fun row => row.map (fun s => resampleSeries src target s))) ∧
    (∀ (target : List ℚ) (pr : Option ℚ × ℚ),
        pr ∈ (resampleSeries ((p :: q :: rest).map Prod.fst) target
                ((p :: q :: rest).map (fun r => some r.2))).zip target →
        (pr.1 = none ↔
          (pr.2 < p.1 ∨ ((p :: q :: rest).map Prod.fst).getLast (by simp) < pr.2))) := by
  constructor
  · intro src target cube; rfl
  · intro target pr hpr
    simp only [resampleSeries] at hpr
    have hval := mem_zip_map
      (fun t => interpPtsO
        (((p :: q :: rest).map Prod.fst).zip ((p :: q :: rest).map (fun r => some r.2)))
        t) target pr hpr
    rw [List.zip_map'] at hval
    simp only [List.map_cons] at hval hs ⊢
    have hfst : (rest.map (fun a : ℚ × ℚ => (a.1, some a.2))).map Prod.fst =
        rest.map Prod.fst := by simp [List.map_map]
    have hs2 : List.Chain' (· < ·)
        ((((p.1, some p.2) : ℚ × Option ℚ) :: (q.1, some q.2) ::
          rest.map (fun a => (a.1, some a.2))).map Prod.fst) := by
      simp only [List.map_cons, hfst]
      exact hs
    have hlast : ((((p.1, some p.2) : ℚ × Option ℚ) :: (q.1, some q.2) ::
        rest.map (fun a => (a.1, some a.2))).map Prod.fst).getLast (by simp) =
        (p.1 :: q.1 :: rest.map Prod.fst).getLast (by simp) := by
      congr 1
      simp only [List.map_cons, hfst]
    rw [hval]
    constructor
    · intro hnone
      by_contra hout
      push_neg at hout
      refine interp_inside_some (rest.map (fun a => (a.1, some a.2)))
        (p.1, some p.2) (q.1, some q.2) pr.2 hs2 ?_ hout.1 ?_ hnone
      · intro x hx
        simp only [List.mem_cons, List.mem_map] at hx
        rcases hx with rfl | rfl | ⟨a2, _, rfl⟩ <;> simp
      · rw [hlast]
        exact hout.2
    · intro hout
      rcases hout with hlt | hgt
      · exact interp_before_none _ _ _ hlt
      · refine interp_beyond_none (rest.map (fun a => (a.1, some a.2)))
          (p.1, some p.2) (q.1, some q.2) pr.2 hs2 ?_
        rw [hlast]
        exact hgt

/-- Witness for C8 on the two-point series (0 ↦ 10, 1 ↦ 20). -/
theorem resample_time_nan_boundary_witness :
    List.Chain' (· < ·) (([((0 : ℚ), (10 : ℚ)), (1, 20)]).map Prod.fst) ∧
    ((∀ (src target : List ℚ) (cube : Cube),
        interpCubeTime src target cube =
          cube.map (fun row => row.map (fun s => resampleSeries src target s))) ∧
     (∀ (target : List ℚ) (pr : Option ℚ × ℚ),
        pr ∈ (resampleSeries (([((0 : ℚ), (10 : ℚ)), (1, 20)]).map Prod.fst) target
                (([((0 : ℚ), (10 : ℚ)), (1, 20)]).map (fun r => some r.2))).zip target →
        (pr.1 = none ↔
          (pr.2 < ((0 : ℚ), (10 : ℚ)).1 ∨
            (([((0 : ℚ), (10 : ℚ)), (1, 20)]).map Prod.fst).getLast (by simp) < pr.2)))) :=
  ⟨by norm_num [List.map_cons, List.chain'_cons, List.chain'_singleton],
   resample_time_nan_boundary (0, 10) (1, 20) []
     (by norm_num [List.map_cons, List.chain'_cons, List.chain'_singleton])⟩

theorem interpLatLonE_ok_coords {latT lonT : List ℚ} {ds ds2 : XDS}
    (h : interpLatLonE latT lonT ds = Except.ok ds2) :
    ds2.coords = setCoordList "lat" latT (setCoordList "lon" lonT ds.coords) := by
  unfold interpLatLonE at h
  obtain ⟨sl, _, h⟩ := bindE_ok h
  obtain ⟨so, _, h⟩ := bindE_ok h
  simp at h
  rw [← h]

theorem toHourly_ok_coords {ds ds2 : XDS} {tn : String}
    (h : toHourly ds tn = Except.ok ds2) :
    ∃ ax, ds2.coords = setCoordList tn ax ds.coords := by
  unfold toHourly at h
  cases hg : getCoord ds tn with
  | none => rw [hg] at h; exact Except.noConfusion h
  | some ts =>
      rw [hg] at h
      cases ts with
      | nil => exact Except.noConfusion h
      | cons t rest => exact ⟨_, interpTimeE_ok_coords h⟩

theorem regrid_ok_coords {refLat refLon : List ℚ} {stok : XDS} {p : XDS × Bool}
    (h : regridToReference refLat refLon stok = Except.ok p) :
    getCoord p.1 "lat" = some refLat ∧ getCoord p.1 "lon" = some refLon := by
  unfold regridToReference at h
  obtain ⟨acc1, h1, h2⟩ := bindE_ok h
  have hlat1 : getCoord acc1.1 "lat" = some refLat := by
    rcases regridStep_cases h1 with ⟨hout, hcoord⟩ | ⟨_, hint⟩
    · rw [hout]
      simpa using hcoord
    · exact (interpLatLonE_ok_getCoord hint).1
  rcases regridStep_cases h2 with ⟨hout, hcoord⟩ | ⟨_, hint⟩
  · constructor
    · rw [hout]; exact hlat1
    · rw [hout]; simpa using hcoord
  · exact interpLatLonE_ok_getCoord hint

theorem gfsToDataset_ok_coords {files : List GribFile} {ds : XDS}
    (h : gfsToDataset files = Except.ok ds) :
    ∃ vts la lo, ds.coords = [("valid_time", vts), ("lat", la), ("lon", lo)] := by
  unfold gfsToDataset at h
  by_cases he : files.isEmpty
  · rw [if_pos he] at h; exact Except.noConfusion h
  · rw [if_neg he] at h
    exact ⟨_, _, _, by rw [← Except.ok.inj h]⟩

/-- C9: whenever `main`'s composition step succeeds, the driver dataset
contains exactly the six variables u_curr, v_curr, u_stokes, v_stokes,
u_wind, v_wind, and every variable carries time, lat and lon coordinate
arrays identical (in value and order) to the composite's own — hence
identical across all six variables. -/
theorem composite_shared_coords (dsCurr0 dsStok0 : XDS) (gfsFiles : List GribFile)
    (comp : Composite)
    (h : mainBody dsCurr0 dsStok0 gfsFiles = Except.ok comp) :
    comp.vars.map DVar.name =
      ["u_curr", "v_curr", "u_stokes", "v_stokes", "u_wind", "v_wind"] ∧
    ∀ v ∈ comp.vars, v.time = comp.time ∧ v.lat = comp.lat ∧ v.lon = comp.lon := by
  unfold mainBody at h
  obtain ⟨currLat, hCL, h⟩ := bindE_ok h
  obtain ⟨currLon, hCO, h⟩ := bindE_ok h
  obtain ⟨rg, hRG, h⟩ := bindE_ok h
  obtain ⟨dsCurrH, hTH, h⟩ := bindE_ok h
  obtain ⟨currHTime, hHT, h⟩ := bindE_ok h
  obtain ⟨dsStokH, hSI, h⟩ := bindE_ok h
  obtain ⟨gfs, hG, h⟩ := bindE_ok h
  obtain ⟨currHLat, hHLa, h⟩ := bindE_ok h
  obtain ⟨currHLon, hHLo, h⟩ := bindE_ok h
  obtain ⟨gfsT, hGT, h⟩ := bindE_ok h
  obtain ⟨gfsS, hGS, h⟩ := bindE_ok h
  obtain ⟨uCurr, hUC, h⟩ := bindE_ok h
  obtain ⟨vCurr, hVC, h⟩ := bindE_ok h
  obtain ⟨uStok, hUS, h⟩ := bindE_ok h
  obtain ⟨vStok, hVS, h⟩ := bindE_ok h
  obtain ⟨uWind, hUW, h⟩ := bindE_ok h
  obtain ⟨vWind, hVW, h⟩ := bindE_ok h
  obtain ⟨compTime, hCT, h⟩ := bindE_ok h
  obtain ⟨compLat, hCLa, h⟩ := bindE_ok h
  obtain ⟨compLon, hCLo, h⟩ := bindE_ok h
  have hcomp : comp = ⟨compTime, compLat, compLon,
      [uCurr, vCurr, uStok, vStok, uWind, vWind],
      composeTitle, composeNotes⟩ := (Except.ok.inj h).symm
  -- Coordinates of the hourly currents dataset.
  obtain ⟨ax, hco⟩ := toHourly_ok_coords hTH
  have hHT2 : getCoord dsCurrH "time" = some currHTime := getCoordE_ok hHT
  have hHLa2 : getCoord dsCurrH "lat" = some currHLat := getCoordE_ok hHLa
  have hHLo2 : getCoord dsCurrH "lon" = some currHLon := getCoordE_ok hHLo
  have hCT2 : compTime = currHTime :=
    Option.some.inj ((getCoordE_ok hCT).symm.trans hHT2)
  have hCLa2 : compLat = currHLat :=
    Option.some.inj ((getCoordE_ok hCLa).symm.trans hHLa2)
  have hCLo2 : compLon = currHLon :=
    Option.some.inj ((getCoordE_ok hCLo).symm.trans hHLo2)
  -- `_to_hourly` only touches the time coordinate.
  have hlatpres : getCoord dsCurrH "lat" = getCoord (renameLatlon dsCurr0) "lat" := by
    rw [getCoord, hco, lookup_setCoordList_ne "lat" "time" ax (by decide)]
    rfl
  have hlonpres : getCoord dsCurrH "lon" = getCoord (renameLatlon dsCurr0) "lon" := by
    rw [getCoord, hco, lookup_setCoordList_ne "lon" "time" ax (by decide)]
    rfl
  have hHLaCL : currHLat = currLat :=
    Option.some.inj ((hHLa2.symm.trans hlatpres).trans (getCoordE_ok hCL))
  have hHLoCO : currHLon = currLon :=
    Option.some.inj ((hHLo2.symm.trans hlonpres).trans (getCoordE_ok hCO))
  -- Coordinates of the time-aligned stokes dataset.
  have hscoords := interpTimeE_ok_coords hSI
  have hstoktime : getCoord dsStokH "time" = some currHTime := by
    rw [getCoord, hscoords]
    exact lookup_setCoordList_self "time" currHTime _
  have hstokrg := regrid_ok_coords hRG
  have hstoklat : getCoord dsStokH "lat" = some currLat := by
    rw [getCoord, hscoords, lookup_setCoordList_ne "lat" "time" currHTime (by decide)]
    exact hstokrg.1
  have hstoklon : getCoord dsStokH "lon" = some currLon := by
    rw [getCoord, hscoords, lookup_setCoordList_ne "lon" "time" currHTime (by decide)]
    exact hstokrg.2
  -- Coordinates of the wind dataset after time and space interpolation
  -- and the `valid_time` → `time` rename.
  obtain ⟨vts, la, lo, hgco⟩ := gfsToDataset_ok_coords hG
  have hgtco := interpTimeE_ok_coords hGT
  have hgfsT : gfsT.coords = [("valid_time", currHTime), ("lat", la), ("lon", lo)] := by
    rw [hgtco, hgco]
    simp [setCoordList]
  have hgsco := interpLatLonE_ok_coords hGS
  have hgfsS : gfsS.coords =
      [("valid_time", currHTime), ("lat", currHLat), ("lon", currHLon)] := by
    rw [hgsco, hgfsT]
    simp [setCoordList]
  have hgHtime : getCoord (renameCoordKey "valid_time" "time" gfsS) "time" =
      some currHTime := by
    simp [getCoord, renameCoordKey, hgfsS, List.lookup]
  have hgHlat : getCoord (renameCoordKey "valid_time" "time" gfsS) "lat" =
      some currHLat := by
    simp [getCoord, renameCoordKey, hgfsS, List.lookup]
  have hgHlon : getCoord (renameCoordKey "valid_time" "time" gfsS) "lon" =
      some currHLon := by
    simp [getCoord, renameCoordKey, hgfsS, List.lookup]
  -- Per-variable facts from the six extractions.
  obtain ⟨hUCn, hUCt, hUCla, hUClo⟩ := extractVar_ok hUC
  obtain ⟨hVCn, hVCt, hVCla, hVClo⟩ := extractVar_ok hVC
  obtain ⟨hUSn, hUSt, hUSla, hUSlo⟩ := extractVar_ok hUS
  obtain ⟨hVSn, hVSt, hVSla, hVSlo⟩ := extractVar_ok hVS
  obtain ⟨hUWn, hUWt, hUWla, hUWlo⟩ := extractVar_ok hUW
  obtain ⟨hVWn, hVWt, hVWla, hVWlo⟩ := extractVar_ok hVW
  subst hcomp
  constructor
  · simp [hUCn, hVCn, hUSn, hVSn, hUWn, hVWn]
  · intro v hv
    simp only [List.mem_cons, List.not_mem_nil, or_false] at hv
    have hfromCurrH : ∀ w : DVar, getCoord dsCurrH "time" = some w.time →
        getCoord dsCurrH "lat" = some w.lat →
        getCoord dsCurrH "lon" = some w.lon →
        w.time = compTime ∧ w.lat = compLat ∧ w.lon = compLon := by
      intro w h1 h2 h3
      refine ⟨?_, ?_, ?_⟩
      · rw [hCT2]; exact Option.some.inj (h1.symm.trans hHT2)
      · rw [hCLa2]; exact Option.some.inj (h2.symm.trans hHLa2)
      · rw [hCLo2]; exact Option.some.inj (h3.symm.trans hHLo2)
    rcases hv with rfl | rfl | rfl | rfl | rfl | rfl
    · exact hfromCurrH v hUCt hUCla hUClo
    · exact hfromCurrH v hVCt hVCla hVClo
    · refine ⟨?_, ?_, ?_⟩
      · rw [hCT2]; exact Option.some.inj (hUSt.symm.trans hstoktime)
      · rw [hCLa2, hHLaCL]; exact Option.some.inj (hUSla.symm.trans hstoklat)
      · rw [hCLo2, hHLoCO]; exact Option.some.inj (hUSlo.symm.trans hstoklon)
    · refine ⟨?_, ?_, ?_⟩
      · rw [hCT2]; exact Option.some.inj (hVSt.symm.trans hstoktime)
      · rw [hCLa2, hHLaCL]; exact Option.some.inj (hVSla.symm.trans hstoklat)
      · rw [hCLo2, hHLoCO]; exact Option.some.inj (hVSlo.symm.trans hstoklon)
    · refine ⟨?_, ?_, ?_⟩
      · rw [hCT2]; exact Option.some.inj (hUWt.symm.trans hgHtime)
      · rw [hCLa2]; exact Option.some.inj (hUWla.symm.trans hgHlat)
      · rw [hCLo2]; exact Option.some.inj (hUWlo.symm.trans hgHlon)
    · refine ⟨?_, ?_, ?_⟩
      · rw [hCT2]; exact Option.some.inj (hVWt.symm.trans hgHtime)
      · rw [hCLa2]; exact Option.some.inj (hVWla.symm.trans hgHlat)
      · rw [hCLo2]; exact Option.some.inj (hVWlo.symm.trans hgHlon)

/-- Witness for C9 on a concrete successful pipeline run. -/
theorem composite_shared_coords_witness :
    mainBody exCurr exStok [exGfsA, exGfsB] = Except.ok exComp9 ∧
    exComp9.vars.map DVar.name =
      ["u_curr", "v_curr", "u_stokes", "v_stokes", "u_wind", "v_wind"] :=
  ⟨by with_unfolding_all decide,
   (composite_shared_coords exCurr exStok [exGfsA, exGfsB] exComp9
     (by with_unfolding_all decide)).1⟩

/-- C3 (counterexample): for a reference time coordinate on half hours
(00:30 and 01:30) the implemented hourly axis is `[00:30, 01:30]` — it
starts at the exact minimum, not at its floor, and does not end at the
ceiling of the maximum — whereas the claimed floor-to-ceiling axis is
`[0, 1, 2]`. -/
theorem to_hourly_not_floor_ceil :
    toHourly exDS3 "time" = Except.ok exDS3H ∧
    getCoord exDS3H "time" = some [1/2, 3/2] ∧
    specHourlyAxis (1/2) (3/2) = [0, 1, 2] ∧
    ([(1 : ℚ)/2, 3/2] ≠ specHourlyAxis (1/2) (3/2)) := by
  refine ⟨by with_unfolding_all decide, by with_unfolding_all decide,
    by with_unfolding_all decide, by with_unfolding_all decide⟩

end Stitch
